import Mathlib

/-!
# Verification of the embedded voxel-scene editor

A shallow embedding of the in-browser voxel editor contained in
`src/services/gemini.ts` (the `EDITOR_SCRIPT` module): the command history
engine (`CommandManager` with `execute` / `undo` / `redo`), the three command
classes (`AddVoxelCommand`, `RemoveVoxelCommand`, `TransformCommand`), the
selection controller (`selectObject`), the hover / select ray-hit filters, and
the per-tool `mousedown` branches (select, build, break, pipette) together
with the grid-snapping computation of the `mousemove` handler.

Scene nodes are identified by natural numbers; the scene graph is a parent
pointer map together with per-node attribute maps (transform, lock flag,
instancing flag, geometry data, colors, per-instance matrices).  Numeric
coordinates are rationals, matching the JS floating point arithmetic on the
concrete inputs considered here.
-/

namespace VoxelEditor

abbrev NodeId := Nat

/-- The id of the scene root (`window.scene`). -/
def sceneId : NodeId := 0

/-- A 3-component vector (`THREE.Vector3`). -/
structure Vec3 where
  x : ℚ
  y : ℚ
  z : ℚ
deriving DecidableEq

/-- A quaternion (`THREE.Quaternion`). -/
structure Quat where
  x : ℚ
  y : ℚ
  z : ℚ
  w : ℚ
deriving DecidableEq

/-- The identity quaternion (default orientation of a fresh `THREE.Mesh`). -/
def quatId : Quat := ⟨0, 0, 0, 1⟩

/-- An object's local transform: position, quaternion, scale. -/
structure TRS where
  position : Vec3
  quaternion : Quat
  scale : Vec3
deriving DecidableEq

/-- Default transform of a freshly constructed `THREE.Mesh`. -/
def trsDefault : TRS := ⟨⟨0, 0, 0⟩, quatId, ⟨1, 1, 1⟩⟩

/-- A 4×4 matrix (`THREE.Matrix4`), used for per-instance matrices of an
`InstancedMesh`. -/
def Mat4 := Fin 4 → Fin 4 → ℚ

instance : DecidableEq Mat4 :=
  inferInstanceAs (DecidableEq (Fin 4 → Fin 4 → ℚ))

/-- `new THREE.Matrix4()`: the identity matrix. -/
def idMat4 : Mat4 := fun i j => if i = j then 1 else 0

/-- `mat.makeScale(0,0,0)`: the scale matrix with all three scale factors 0;
it overwrites every entry of the receiver. -/
def scaleZeroMat : Mat4 := fun i j => if i = 3 ∧ j = 3 then 1 else 0

/-- `Math.round` of JavaScript: round to the nearest integer, halves toward
positive infinity. -/
def jsRound (q : ℚ) : ℤ := ⌊q + 1/2⌋

/-- The scene graph and per-node attributes, as touched by the editor script.
`parent v = none` means `v` is not attached anywhere (`object.parent ===
null`); top-level objects have `parent = some sceneId`. -/
@[ext]
structure GraphState where
  parent : NodeId → Option NodeId
  transform : NodeId → TRS
  /-- `object.userData.locked` (undefined coerces to `false`). -/
  locked : NodeId → Bool
  /-- `object.isInstancedMesh`. -/
  instanced : NodeId → Bool
  /-- `object.isTransformControlsPlane`. -/
  isTCPlane : NodeId → Bool
  /-- `object.geometry.type === 'BoxGeometry'`. -/
  geomBox : NodeId → Bool
  /-- `object.geometry.parameters.width` (for box geometries). -/
  geomWidth : NodeId → ℚ
  /-- `object.material.color` as a hex number. -/
  matColor : NodeId → ℕ
  /-- whether `object.getColorAt` is available. -/
  hasGetColorAt : NodeId → Bool
  /-- per-instance color of an `InstancedMesh`, by instance index. -/
  instColor : NodeId → ℕ → ℕ
  /-- per-instance matrix of an `InstancedMesh`, by instance index. -/
  instMat : NodeId → ℕ → Mat4

/-- `parent.add(voxel)`: (re)parents `voxel` under `parent`. -/
def addChild (p v : NodeId) (g : GraphState) : GraphState :=
  { g with parent := Function.update g.parent v (some p) }

/-- `parent.remove(voxel)`: detaches `voxel` only if it currently is a child
of `parent`; otherwise a no-op. -/
def removeChild (p v : NodeId) (g : GraphState) : GraphState :=
  if g.parent v = some p then
    { g with parent := Function.update g.parent v none }
  else g

/-- `object.position.copy(t.position)` etc.: overwrite the full transform. -/
def setTRS (o : NodeId) (t : TRS) (g : GraphState) : GraphState :=
  { g with transform := Function.update g.transform o t }

/-- The reversible commands recorded in the history
(`AddVoxelCommand`, `RemoveVoxelCommand`, `TransformCommand`). -/
inductive Cmd where
  | addVoxel (parent voxel : NodeId)
  | removeVoxel (parent voxel : NodeId)
  | transformCmd (object : NodeId) (oldState newState : TRS)
deriving DecidableEq

/-- Effect of `cmd.execute()` on the scene graph alone. -/
def Cmd.applyG : Cmd → GraphState → GraphState
  | .addVoxel p v, g => addChild p v g
  | .removeVoxel p v, g => removeChild p v g
  | .transformCmd o _old new, g => setTRS o new g

/-- Effect of `cmd.undo()` on the scene graph alone. -/
def Cmd.revertG : Cmd → GraphState → GraphState
  | .addVoxel p v, g => removeChild p v g
  | .removeVoxel p v, g => addChild p v g
  | .transformCmd o old _new, g => setTRS o old g

/-- The tool modes of the editor. -/
inductive Tool where
  | select
  | move
  | rotate
  | scale
  | build
  | break_
  | pipette
deriving DecidableEq

/-- The grid-snapped hover target (`state.hoveredVoxel`):
`{ x, y, z, hitObj, hitId }`. -/
structure HoverTarget where
  x : ℚ
  y : ℚ
  z : ℚ
  hitObj : NodeId
  hitId : Option ℕ
deriving DecidableEq

/-- The mutable editor state (`state` plus the gizmo/selection-box widgets'
attachment state). `gizmo = some v` means the transform gizmo is attached to
node `v`. -/
structure EditorState where
  graph : GraphState
  selected : Option NodeId
  boxVisible : Bool
  gizmo : Option NodeId
  activeTool : Tool
  brushColor : ℕ
  brushSize : ℕ
  lastPipetteClick : ℤ
  hovered : Option HoverTarget

/-- `selectObject(obj)`: set selection, show/hide the bounding box, and attach
the gizmo only when the node is unlocked and a transform tool is active. -/
def selectObject (o : Option NodeId) (st : EditorState) : EditorState :=
  match o with
  | some v =>
      let st1 := { st with selected := some v, boxVisible := true }
      if st1.graph.locked v then
        { st1 with gizmo := none }
      else if st1.activeTool = .move ∨ st1.activeTool = .rotate ∨
          st1.activeTool = .scale then
        { st1 with gizmo := some v }
      else st1
  | none => { st with selected := none, boxVisible := false, gizmo := none }

/-- `cmd.execute()` on the full editor state.  `RemoveVoxelCommand.execute`
additionally clears the selection when the removed voxel is selected. -/
def Cmd.applyE : Cmd → EditorState → EditorState
  | .addVoxel p v, st => { st with graph := addChild p v st.graph }
  | .removeVoxel p v, st =>
      let st1 := { st with graph := removeChild p v st.graph }
      if st1.selected = some v then selectObject none st1 else st1
  | .transformCmd o _old new, st => { st with graph := setTRS o new st.graph }

/-- `cmd.undo()` on the full editor state (none of the `undo` methods touch
the selection). -/
def Cmd.revertE : Cmd → EditorState → EditorState
  | .addVoxel p v, st => { st with graph := removeChild p v st.graph }
  | .removeVoxel p v, st => { st with graph := addChild p v st.graph }
  | .transformCmd o old _new, st => { st with graph := setTRS o old st.graph }

/-- The `CommandManager`'s history: the command log and the cursor index
(`this.history`, `this.index`, starting at `-1`). -/
structure Hist where
  history : List Cmd
  index : ℤ
deriving DecidableEq

/-- A fresh `CommandManager`. -/
def histInit : Hist := ⟨[], -1⟩

/-- `CommandManager.execute(cmd)`: apply the command, truncate the log after
the cursor when the cursor is not at the end, append, advance the cursor. -/
def execute (c : Cmd) (p : Hist × EditorState) : Hist × EditorState :=
  let s' := c.applyE p.2
  let l :=
    if p.1.index < (p.1.history.length : ℤ) - 1 then
      p.1.history.take (p.1.index + 1).toNat
    else p.1.history
  (⟨l ++ [c], p.1.index + 1⟩, s')

/-- `CommandManager.undo()`: when the cursor is non-negative, revert the
command at the cursor and decrement the cursor. -/
def undo (p : Hist × EditorState) : Hist × EditorState :=
  if 0 ≤ p.1.index then
    match p.1.history.get? p.1.index.toNat with
    | some c => (⟨p.1.history, p.1.index - 1⟩, c.revertE p.2)
    | none => p
  else p

/-- `CommandManager.redo()`: when the cursor is before the end of the log,
advance the cursor and apply the command now at the cursor. -/
def redo (p : Hist × EditorState) : Hist × EditorState :=
  if p.1.index < (p.1.history.length : ℤ) - 1 then
    match p.1.history.get? (p.1.index + 1).toNat with
    | some c => (⟨p.1.history, p.1.index + 1⟩, c.applyE p.2)
    | none => (⟨p.1.history, p.1.index + 1⟩, p.2)
  else p

/-- Execute a list of commands in order through the manager. -/
def execList (cmds : List Cmd) (p : Hist × EditorState) : Hist × EditorState :=
  cmds.foldl (fun q c => execute c q) p

/-- Applying a list of commands directly to the editor state, in order. -/
def applySeqE (cmds : List Cmd) (s : EditorState) : EditorState :=
  cmds.foldl (fun t c => c.applyE t) s

/-- Reverting a list of commands directly, last command first. -/
def revertSeqE (cmds : List Cmd) (s : EditorState) : EditorState :=
  cmds.foldr (fun c t => c.revertE t) s

/-- Graph-level version of `applySeqE`. -/
def applySeqG (cmds : List Cmd) (g : GraphState) : GraphState :=
  cmds.foldl (fun t c => c.applyG t) g

/-- Graph-level version of `revertSeqE`. -/
def revertSeqG (cmds : List Cmd) (g : GraphState) : GraphState :=
  cmds.foldr (fun c t => c.revertG t) g

/-- Well-formedness of a command at the moment it is executed: the UI only
ever constructs an `AddVoxelCommand` for a freshly created (unattached) mesh,
a `RemoveVoxelCommand` with the object's actual parent, and a
`TransformCommand` whose `oldState` snapshot is the object's transform at
drag start. -/
def validC : Cmd → GraphState → Prop
  | .addVoxel _p v, g => g.parent v = none
  | .removeVoxel p v, g => g.parent v = some p
  | .transformCmd o old _new, g => g.transform o = old

/-- Every command of the run is well-formed at its own execution point. -/
def validRun : List Cmd → GraphState → Prop
  | [], _ => True
  | c :: cs, g => validC c g ∧ validRun cs (c.applyG g)

/-! ## Spatial query and tool dispatch -/

/-- The node ids of the editor's own scene widgets: the ghost cursor, the
transform gizmo root (`controlGizmo`), and the selection box helper. -/
structure Widgets where
  ghost : NodeId
  gizmoRoot : NodeId
  selBox : NodeId

/-- One entry of the raycaster's intersection list, nearest first. -/
structure RayHit where
  point : Vec3
  normal : Vec3
  object : NodeId
  instanceId : Option ℕ

/-- The hit filter of the `mousemove` handler for Build/Break/Pipette:
`i.object !== ghostCursor && i.object !== controlGizmo && i.object !==
selectionBox && !i.object.isTransformControlsPlane &&
!i.object.userData.locked` — the lock test is on the direct object only. -/
def hoverFilter (g : GraphState) (w : Widgets) (o : NodeId) : Bool :=
  o ≠ w.ghost ∧ o ≠ w.gizmoRoot ∧ o ≠ w.selBox ∧ ¬g.isTCPlane o ∧ ¬g.locked o

/-- The `while (check && check !== scene)` walk of the Select hit filter:
returns `false` iff some node on the parent chain (the node itself included,
the scene root excluded) is locked.  `fuel` bounds the walk; the real scene
graph is a finite tree, so sufficient fuel makes the bound immaterial. -/
def chainUnlocked (g : GraphState) : ℕ → NodeId → Bool
  | 0, _ => true
  | fuel + 1, o =>
      if o = sceneId then true
      else if g.locked o then false
      else
        match g.parent o with
        | none => true
        | some q => chainUnlocked g fuel q

/-- The hit filter of the Select `mousedown` branch: reject the gizmo, the
selection box, transform-controls planes, and any object whose parent chain
contains a locked node.  (The ghost cursor is not excluded here.) -/
def selectFilter (g : GraphState) (w : Widgets) (fuel : ℕ) (o : NodeId) :
    Bool :=
  o ≠ w.gizmoRoot ∧ o ≠ w.selBox ∧ ¬g.isTCPlane o ∧ chainUnlocked g fuel o

/-- Grid-snapped target computation of the `mousemove` handler:
`targetPos = hitPoint ± normal * (size * 0.5)` (plus for Build, minus
otherwise), then `Math.round` on each axis. -/
def snapTarget (tool : Tool) (size : ℕ) (point normal : Vec3) : Vec3 :=
  let shift : Vec3 :=
    ⟨normal.x * ((size : ℚ) * (1/2)), normal.y * ((size : ℚ) * (1/2)),
     normal.z * ((size : ℚ) * (1/2))⟩
  let t : Vec3 :=
    if tool = .build then
      ⟨point.x + shift.x, point.y + shift.y, point.z + shift.z⟩
    else
      ⟨point.x - shift.x, point.y - shift.y, point.z - shift.z⟩
  ⟨(jsRound t.x : ℚ), (jsRound t.y : ℚ), (jsRound t.z : ℚ)⟩

/-- The `mousemove` handler while a Build/Break/Pipette tool is active:
find the first intersection passing `hoverFilter`, snap it, and store the
hover target (or clear it when nothing valid is hit). -/
def mousemoveTool (w : Widgets) (intersects : List RayHit)
    (st : EditorState) : EditorState :=
  if st.activeTool = .build ∨ st.activeTool = .break_ ∨
      st.activeTool = .pipette then
    match intersects.find? (fun i => hoverFilter st.graph w i.object) with
    | some hit =>
        let c := snapTarget st.activeTool st.brushSize hit.point hit.normal
        { st with hovered := some ⟨c.x, c.y, c.z, hit.object, hit.instanceId⟩ }
    | none => { st with hovered := none }
  else st

/-- The Select branch of the `mousedown` handler: select the nearest
intersection passing `selectFilter`, or clear the selection. -/
def mousedownSelect (w : Widgets) (fuel : ℕ) (now : ℤ)
    (intersects : List RayHit) (st : EditorState) : EditorState :=
  let st := { st with lastPipetteClick := now }
  if st.activeTool = .select then
    match intersects.find? (fun i => selectFilter st.graph w fuel i.object)
      with
    | some hit => selectObject (some hit.object) st
    | none => selectObject none st
  else st

/-- The Build branch of the `mousedown` handler: create a cube mesh of side
`brushSize` at the snapped hover position colored with the brush color,
find-or-create the `"UserLayer"` group `u` under the scene root, and execute
an `AddVoxelCommand`.  `v` is the id of the freshly constructed mesh. -/
def mousedownBuild (now : ℤ) (v u : NodeId) (p : Hist × EditorState) :
    Hist × EditorState :=
  let st := { p.2 with lastPipetteClick := now }
  if st.activeTool = .build then
    match st.hovered with
    | some hv =>
        let size := st.brushSize
        let g := st.graph
        let g1 : GraphState :=
          { g with
            transform := Function.update g.transform v
              ⟨⟨hv.x, hv.y, hv.z⟩, quatId, ⟨1, 1, 1⟩⟩
            geomBox := Function.update g.geomBox v true
            geomWidth := Function.update g.geomWidth v (size : ℚ)
            matColor := Function.update g.matColor v st.brushColor
            instanced := Function.update g.instanced v false
            isTCPlane := Function.update g.isTCPlane v false
            locked := Function.update g.locked v false }
        let g2 : GraphState :=
          if g1.parent u = none then
            { g1 with parent := Function.update g1.parent u (some sceneId) }
          else g1
        execute (.addVoxel u v) (p.1, { st with graph := g2 })
    | none => (p.1, st)
  else (p.1, st)

/-- The Break branch of the `mousedown` handler: on an unlocked hover target,
remove an ordinary mesh through a `RemoveVoxelCommand`, but hide an
`InstancedMesh` instance by overwriting its instance matrix with
`makeScale(0,0,0)` — without touching the history. -/
def mousedownBreak (now : ℤ) (p : Hist × EditorState) : Hist × EditorState :=
  let st := { p.2 with lastPipetteClick := now }
  if st.activeTool = .break_ then
    match st.hovered with
    | some hv =>
        let t := hv.hitObj
        if st.graph.locked t then (p.1, st)
        else if st.graph.instanced t then
          match hv.hitId with
          | some id =>
              (p.1, { st with graph := { st.graph with
                instMat := Function.update st.graph.instMat t
                  (Function.update (st.graph.instMat t) id scaleZeroMat) } })
          | none => (p.1, st)
        else
          execute (.removeVoxel ((st.graph.parent t).getD sceneId) t)
            (p.1, st)
    | none => (p.1, st)
  else (p.1, st)

/-- The cube side length read by the pipette:
`target.scale.x * (target.geometry.parameters.width || 1)` (the `|| 1`
replaces a zero/absent width by 1). -/
def cubeSide (g : GraphState) (t : NodeId) : ℚ :=
  (g.transform t).scale.x * (if g.geomWidth t = 0 then 1 else g.geomWidth t)

/-- The Pipette branch of the `mousedown` handler: read the target's color
into the brush; on a second activation within 300 ms (`isDbl`), if the target
is a non-instanced box mesh, read its side length (`cubeSide`), round it,
and adopt it as the brush size only when the rounded value lies in
`[1,5]`. -/
def mousedownPipette (now : ℤ) (st0 : EditorState) : EditorState :=
  let isDbl : Bool := now - st0.lastPipetteClick < 300
  let st := { st0 with lastPipetteClick := now }
  if st.activeTool = .pipette then
    match st.hovered with
    | some hv =>
        let t := hv.hitObj
        let color? : Option ℕ :=
          if st.graph.instanced t then
            if st.graph.hasGetColorAt t then
              some (st.graph.instColor t (hv.hitId.getD 0))
            else none
          else some (st.graph.matColor t)
        let st1 := { st with brushColor := color?.getD st.brushColor }
        if isDbl ∧ ¬st.graph.instanced t ∧ st.graph.geomBox t then
          let rounded := jsRound (cubeSide st.graph t)
          if 1 ≤ rounded ∧ rounded ≤ 5 then
            { st1 with brushSize := rounded.toNat }
          else st1
        else st1
    | none => st
  else st

/-! ## Context menu, keyboard, tree view -/

/-- Clicking the Delete item of the context menu opened on `obj`
(`showCtxMenu` itself ran `selectObject(obj)`); a locked target renders the
item disabled, with no click handler attached. -/
def ctxDelete (obj : NodeId) (p : Hist × EditorState) : Hist × EditorState :=
  let p1 := (p.1, selectObject (some obj) p.2)
  if p1.2.graph.locked obj then p1
  else
    execute (.removeVoxel ((p1.2.graph.parent obj).getD sceneId) obj) p1

/-- Clicking the Clone item of the context menu opened on `obj`: clone the
node (fresh id `c`, transform copied with `position.addScalar(2)`, `userData`
copied) and execute an `AddVoxelCommand`; disabled when locked. -/
def ctxClone (obj c : NodeId) (p : Hist × EditorState) : Hist × EditorState :=
  let p1 := (p.1, selectObject (some obj) p.2)
  if p1.2.graph.locked obj then p1
  else
    let g := p1.2.graph
    let t := g.transform obj
    let g1 : GraphState :=
      { g with
        transform := Function.update g.transform c
          ⟨⟨t.position.x + 2, t.position.y + 2, t.position.z + 2⟩,
           t.quaternion, t.scale⟩
        geomBox := Function.update g.geomBox c (g.geomBox obj)
        geomWidth := Function.update g.geomWidth c (g.geomWidth obj)
        matColor := Function.update g.matColor c (g.matColor obj)
        instanced := Function.update g.instanced c (g.instanced obj)
        isTCPlane := Function.update g.isTCPlane c (g.isTCPlane obj)
        locked := Function.update g.locked c (g.locked obj) }
    execute (.addVoxel ((g1.parent obj).getD sceneId) c)
      (p1.1, { p1.2 with graph := g1 })

/-- The `Delete`/`Backspace` key handler: remove the selected object unless
it is locked (or nothing is selected). -/
def keyDelete (p : Hist × EditorState) : Hist × EditorState :=
  match p.2.selected with
  | some v =>
      if p.2.graph.locked v then p
      else execute (.removeVoxel ((p.2.graph.parent v).getD sceneId) v) p
  | none => p

/-- A primary-button `mousedown` on an object-tree row: `selectObject(obj)`
with no lock filtering. -/
def treeRowMouseDown (button : ℕ) (obj : NodeId) (st : EditorState) :
    EditorState :=
  if button = 0 then selectObject (some obj) st else st

/-! ## Sample states (used by the concrete witnesses) -/

/-- An empty scene: no node attached, every attribute at its default. -/
def g0 : GraphState where
  parent := fun _ => none
  transform := fun _ => trsDefault
  locked := fun _ => false
  instanced := fun _ => false
  isTCPlane := fun _ => false
  geomBox := fun _ => false
  geomWidth := fun _ => 1
  matColor := fun _ => 16777215
  hasGetColorAt := fun _ => false
  instColor := fun _ _ => 0
  instMat := fun _ _ => idMat4

/-- The editor state right after initialization. -/
def st0 : EditorState where
  graph := g0
  selected := none
  boxVisible := false
  gizmo := none
  activeTool := .select
  brushColor := 16777215
  brushSize := 1
  lastPipetteClick := 0
  hovered := none

/-! ## Helper lemmas -/

/-- `selectObject` never touches the scene graph. -/
@[simp]
theorem selectObject_graph (o : Option NodeId) (st : EditorState) :
    (selectObject o st).graph = st.graph := by
  cases o with
  | none => rfl
  | some v =>
      simp only [selectObject]
      split
      · rfl
      · split <;> rfl

theorem selectObject_some_selected (v : NodeId) (st : EditorState) :
    (selectObject (some v) st).selected = some v := by
  simp only [selectObject]
  split
  · rfl
  · split <;> rfl

theorem selectObject_some_boxVisible (v : NodeId) (st : EditorState) :
    (selectObject (some v) st).boxVisible = true := by
  simp only [selectObject]
  split
  · rfl
  · split <;> rfl

theorem selectObject_locked_gizmo (v : NodeId) (st : EditorState)
    (h : st.graph.locked v = true) :
    (selectObject (some v) st).gizmo = none := by
  simp only [selectObject]
  split
  · rfl
  · rename_i hc
    exact absurd h hc

/-- `RemoveVoxelCommand.execute` on a state whose selection is the removed
voxel: detach from the parent, then `selectObject(null)`. -/
theorem applyE_removeVoxel_of_selected (par v : NodeId) (st : EditorState)
    (h : st.selected = some v) :
    Cmd.applyE (.removeVoxel par v) st =
      selectObject none { st with graph := removeChild par v st.graph } := by
  simp only [Cmd.applyE]
  split
  · rfl
  · rename_i hne
    exact absurd h hne

/-! ## Sample inputs used by the witnesses -/

/-- A scene in which node 3 is locked. -/
def gLocked : GraphState := { g0 with locked := fun n => n == 3 }

/-- Editor state over `gLocked`. -/
def stLocked : EditorState := { st0 with graph := gLocked }

/-- A scene in which node 7 is an `InstancedMesh`. -/
def gInst : GraphState := { g0 with instanced := fun n => n == 7 }

/-- Break tool active, hovering instance 4 of the instanced mesh 7. -/
def stBreak : EditorState :=
  { st0 with
    graph := gInst
    activeTool := .break_
    hovered := some ⟨1, 2, 3, 7, some 4⟩ }

/-! ## Claims -/

/-- Claim C9: executing a `RemoveVoxelCommand` on the node that is currently
selected sets the selection to none, hides the bounding-box highlight, and
detaches the transform manipulator. -/
theorem remove_selected_clears_selection (par v : NodeId)
    (p : Hist × EditorState) (hsel : p.2.selected = some v) :
    (execute (.removeVoxel par v) p).2.selected = none ∧
    (execute (.removeVoxel par v) p).2.boxVisible = false ∧
    (execute (.removeVoxel par v) p).2.gizmo = none := by
  have h2 : (execute (.removeVoxel par v) p).2 =
      Cmd.applyE (.removeVoxel par v) p.2 := rfl
  rw [h2, applyE_removeVoxel_of_selected par v p.2 hsel]
  exact ⟨rfl, rfl, rfl⟩

/-- Witness for C9 at a concrete state with node 5 selected. -/
theorem remove_selected_clears_selection_witness :
    (execute (.removeVoxel 0 5)
      (histInit, { st0 with selected := some 5 })).2.selected = none :=
  (remove_selected_clears_selection 0 5
    (histInit, { st0 with selected := some 5 }) rfl).1

/-- Claim C10: a primary click on an object-tree row selects the node with no
lock filtering — the selection is set and the highlight shown even for a
locked node, and for a locked node the manipulator is detached, not
attached. -/
theorem tree_row_click_bypasses_lock (obj : NodeId) (st : EditorState) :
    (treeRowMouseDown 0 obj st).selected = some obj ∧
    (treeRowMouseDown 0 obj st).boxVisible = true ∧
    (st.graph.locked obj = true → (treeRowMouseDown 0 obj st).gizmo = none)
    := by
  have h0 : treeRowMouseDown 0 obj st = selectObject (some obj) st := by
    simp [treeRowMouseDown]
  rw [h0]
  exact ⟨selectObject_some_selected obj st,
    selectObject_some_boxVisible obj st,
    fun h => selectObject_locked_gizmo obj st h⟩

/-- Witness for C10 on the locked node 3. -/
theorem tree_row_click_bypasses_lock_witness :
    (treeRowMouseDown 0 3 stLocked).selected = some 3 ∧
    (treeRowMouseDown 0 3 stLocked).boxVisible = true ∧
    (treeRowMouseDown 0 3 stLocked).gizmo = none := by
  obtain ⟨a, b, cimp⟩ := tree_row_click_bypasses_lock 3 stLocked
  exact ⟨a, b, cimp rfl⟩

/-- Claim C8: on a locked node, the Delete and Clone context actions and the
Delete/Backspace key (with the locked node selected) execute no command: the
history is unchanged and the scene graph is unchanged. -/
theorem locked_node_actions_noop (obj c : NodeId) (p : Hist × EditorState)
    (hlock : p.2.graph.locked obj = true) :
    (ctxDelete obj p).1 = p.1 ∧ (ctxDelete obj p).2.graph = p.2.graph ∧
    (ctxClone obj c p).1 = p.1 ∧ (ctxClone obj c p).2.graph = p.2.graph ∧
    (p.2.selected = some obj → keyDelete p = p) := by
  have hd : ctxDelete obj p = (p.1, selectObject (some obj) p.2) := by
    unfold ctxDelete
    simp only [selectObject_graph, hlock, if_true]
  have hc : ctxClone obj c p = (p.1, selectObject (some obj) p.2) := by
    unfold ctxClone
    simp only [selectObject_graph, hlock, if_true]
  refine ⟨by rw [hd], by rw [hd]; exact selectObject_graph _ _,
    by rw [hc], by rw [hc]; exact selectObject_graph _ _, ?_⟩
  intro hsel
  unfold keyDelete
  split
  · rename_i v hv
    rw [hsel] at hv
    obtain rfl : obj = v := by injection hv
    rw [if_pos hlock]
  · rfl

/-- Witness for C8: locked node 3 selected, with a fresh history. -/
theorem locked_node_actions_noop_witness :
    (ctxDelete 3 (histInit, { stLocked with selected := some 3 })).1 =
      histInit ∧
    keyDelete (histInit, { stLocked with selected := some 3 }) =
      (histInit, { stLocked with selected := some 3 }) := by
  obtain ⟨a, _, _, _, e⟩ := locked_node_actions_noop 3 9
    (histInit, { stLocked with selected := some 3 }) rfl
  exact ⟨a, e rfl⟩

/-- Claim C6: a Break pointer-down on an unlocked `InstancedMesh` hover
target overwrites exactly that instance's matrix with the zero-scale matrix
and leaves the command history (log and cursor) and the rest of the graph
unchanged. -/
theorem break_instanced_bypasses_history (now : ℤ) (p : Hist × EditorState)
    (hv : HoverTarget) (id : ℕ)
    (hh : p.2.hovered = some hv) (htool : p.2.activeTool = .break_)
    (hlock : p.2.graph.locked hv.hitObj = false)
    (hinst : p.2.graph.instanced hv.hitObj = true)
    (hid : hv.hitId = some id) :
    (mousedownBreak now p).1 = p.1 ∧
    (mousedownBreak now p).2.graph.instMat hv.hitObj id = scaleZeroMat ∧
    (∀ j, j ≠ id → (mousedownBreak now p).2.graph.instMat hv.hitObj j =
      p.2.graph.instMat hv.hitObj j) ∧
    (∀ t, t ≠ hv.hitObj → (mousedownBreak now p).2.graph.instMat t =
      p.2.graph.instMat t) ∧
    (mousedownBreak now p).2.graph.parent = p.2.graph.parent ∧
    (mousedownBreak now p).2.graph.transform = p.2.graph.transform ∧
    (mousedownBreak now p).2.graph.locked = p.2.graph.locked := by
  have key : mousedownBreak now p =
      (p.1, { { p.2 with lastPipetteClick := now } with
        graph := { p.2.graph with
          instMat := Function.update p.2.graph.instMat hv.hitObj
            (Function.update (p.2.graph.instMat hv.hitObj) id
              scaleZeroMat) } }) := by
    unfold mousedownBreak
    simp only [htool, hh, hlock, hinst, hid, if_true, Bool.false_eq_true,
      if_false]
  rw [key]
  refine ⟨rfl, ?_, ?_, ?_, rfl, rfl, rfl⟩
  · simp [Function.update_same]
  · intro j hj
    simp [Function.update_same, Function.update_noteq hj]
  · intro t ht
    simp [Function.update_noteq ht]

/-- Witness for C6: hide instance 4 of the instanced mesh 7. -/
theorem break_instanced_bypasses_history_witness :
    (mousedownBreak 50 (histInit, stBreak)).1 = histInit ∧
    (mousedownBreak 50 (histInit, stBreak)).2.graph.instMat 7 4 =
      scaleZeroMat := by
  obtain ⟨a, b, _⟩ := break_instanced_bypasses_history 50 (histInit, stBreak)
    ⟨1, 2, 3, 7, some 4⟩ 4 rfl rfl rfl rfl rfl
  exact ⟨a, b⟩

/-- Claim C2: from a history with `k` pending redo entries, `execute(cmd)`
applies the command, truncates exactly those `k` entries, appends the
command, advances the cursor by one, and makes an immediately following
`redo()` a no-op. -/
theorem execute_prunes_redo (c : Cmd) (h : Hist) (s : EditorState) (k : ℕ)
    (hlo : -1 ≤ h.index) (hhi : h.index ≤ (h.history.length : ℤ) - 1)
    (hk : (h.history.length : ℤ) - 1 - h.index = k) :
    execute c (h, s) =
      (⟨h.history.take (h.index + 1).toNat ++ [c], h.index + 1⟩,
        c.applyE s) ∧
    (h.history.length : ℤ) -
      ((h.history.take (h.index + 1).toNat).length : ℤ) = k ∧
    redo (execute c (h, s)) = execute c (h, s) := by
  have htn : ((h.index + 1).toNat : ℤ) = h.index + 1 :=
    Int.toNat_of_nonneg (by omega)
  have hle : (h.index + 1).toNat ≤ h.history.length := by omega
  have hlen2 : (h.history.take (h.index + 1).toNat).length =
      (h.index + 1).toNat := by
    rw [List.length_take]
    exact Nat.min_eq_left hle
  have hpart1 : execute c (h, s) =
      (⟨h.history.take (h.index + 1).toNat ++ [c], h.index + 1⟩,
        c.applyE s) := by
    have hif : (if h.index < (h.history.length : ℤ) - 1
        then h.history.take (h.index + 1).toNat
        else h.history) = h.history.take (h.index + 1).toNat := by
      split
      · rfl
      · rename_i hge
        have hge2 : h.history.length ≤ (h.index + 1).toNat := by omega
        exact (List.take_of_length_le hge2).symm
    show ((⟨(if h.index < (h.history.length : ℤ) - 1
        then h.history.take (h.index + 1).toNat
        else h.history) ++ [c], h.index + 1⟩ : Hist), Cmd.applyE c s) =
      ((⟨h.history.take (h.index + 1).toNat ++ [c], h.index + 1⟩ : Hist),
        c.applyE s)
    rw [hif]
  refine ⟨hpart1, ?_, ?_⟩
  · rw [hlen2]
    omega
  · rw [hpart1]
    unfold redo
    split
    · rename_i hcond
      exfalso
      have hcond2 : h.index + 1 <
          ((h.history.take (h.index + 1).toNat ++ [c]).length : ℤ) - 1 :=
        hcond
      rw [List.length_append, hlen2, List.length_singleton] at hcond2
      push_cast at hcond2
      omega
    · rfl

/-- States of the manager/editor pair reachable from a fresh
`CommandManager` by the three history operations. -/
inductive Reach : Hist × EditorState → Prop where
  | init (s : EditorState) : Reach (histInit, s)
  | exec (c : Cmd) (p : Hist × EditorState) : Reach p → Reach (execute c p)
  | undoStep (p : Hist × EditorState) : Reach p → Reach (undo p)
  | redoStep (p : Hist × EditorState) : Reach p → Reach (redo p)

/-- `undo` either leaves the history record unchanged or keeps the log and
decrements a non-negative cursor. -/
theorem undo_hist_cases (p : Hist × EditorState) :
    (undo p).1 = p.1 ∨
    ((undo p).1.history = p.1.history ∧
      (undo p).1.index = p.1.index - 1 ∧ 0 ≤ p.1.index) := by
  unfold undo
  split
  · rename_i hpos
    split
    · right
      exact ⟨rfl, rfl, hpos⟩
    · left
      rfl
  · left
    rfl

/-- `redo` either leaves the history record unchanged or keeps the log and
increments a cursor that was before the end. -/
theorem redo_hist_cases (p : Hist × EditorState) :
    (redo p).1 = p.1 ∨
    ((redo p).1.history = p.1.history ∧
      (redo p).1.index = p.1.index + 1 ∧
      p.1.index < (p.1.history.length : ℤ) - 1) := by
  unfold redo
  split
  · rename_i hlt
    split
    · right
      exact ⟨rfl, rfl, hlt⟩
    · right
      exact ⟨rfl, rfl, hlt⟩
  · left
    rfl

/-- `execute` advances the cursor and produces a log of length at least
cursor + 2 (given the cursor invariant on the input). -/
theorem execute_hist_bounds (c : Cmd) (p : Hist × EditorState)
    (hlo : -1 ≤ p.1.index)
    (hhi : p.1.index ≤ (p.1.history.length : ℤ) - 1) :
    (execute c p).1.index = p.1.index + 1 ∧
    p.1.index + 2 ≤ ((execute c p).1.history.length : ℤ) := by
  refine ⟨rfl, ?_⟩
  show p.1.index + 2 ≤
    (((if p.1.index < (p.1.history.length : ℤ) - 1
        then p.1.history.take (p.1.index + 1).toNat
        else p.1.history) ++ [c]).length : ℤ)
  rw [List.length_append, List.length_singleton]
  split
  · rename_i hlt
    rw [List.length_take]
    have hle : (p.1.index + 1).toNat ≤ p.1.history.length := by omega
    rw [Nat.min_eq_left hle]
    push_cast
    omega
  · push_cast
    omega

/-- Claim C7: in every history state reachable from the initial empty
history by `execute` / `undo` / `redo`, the cursor lies in
`[-1, length - 1]`. -/
theorem history_cursor_in_bounds (p : Hist × EditorState) (hr : Reach p) :
    -1 ≤ p.1.index ∧ p.1.index ≤ (p.1.history.length : ℤ) - 1 := by
  induction hr with
  | init s =>
      exact ⟨le_refl _, by simp [histInit]⟩
  | exec c q _ ih =>
      obtain ⟨ih1, ih2⟩ := ih
      obtain ⟨he1, he2⟩ := execute_hist_bounds c q ih1 ih2
      rw [he1]
      omega
  | undoStep q _ ih =>
      obtain ⟨ih1, ih2⟩ := ih
      rcases undo_hist_cases q with h | ⟨h1, h2, h3⟩
      · rw [h]
        exact ⟨ih1, ih2⟩
      · rw [h1, h2]
        omega
  | redoStep q _ ih =>
      obtain ⟨ih1, ih2⟩ := ih
      rcases redo_hist_cases q with h | ⟨h1, h2, h3⟩
      · rw [h]
        exact ⟨ih1, ih2⟩
      · rw [h1, h2]
        omega

/-- Witness for C7: a concrete reachable state (one execute, one undo). -/
theorem history_cursor_in_bounds_witness :
    -1 ≤ (undo (execute (.addVoxel 0 1) (histInit, st0))).1.index ∧
    (undo (execute (.addVoxel 0 1) (histInit, st0))).1.index ≤
      ((undo (execute (.addVoxel 0 1)
        (histInit, st0))).1.history.length : ℤ) - 1 :=
  history_cursor_in_bounds _
    (Reach.undoStep _ (Reach.exec (.addVoxel 0 1) _ (Reach.init st0)))

/-- Witness for C2: a two-command history with the cursor rewound to 0
(one pending redo entry). -/
theorem execute_prunes_redo_witness :
    redo (execute (.addVoxel 0 5)
        (⟨[.addVoxel 0 1, .addVoxel 0 2], 0⟩, st0)) =
      execute (.addVoxel 0 5) (⟨[.addVoxel 0 1, .addVoxel 0 2], 0⟩, st0) :=
  (execute_prunes_redo (.addVoxel 0 5) ⟨[.addVoxel 0 1, .addVoxel 0 2], 0⟩
    st0 1 (by decide) (by decide) (by decide)).2.2

/-- A scene with a leaf box mesh 5 of side 7 (scale 1, width 7). -/
def gSide7 : GraphState :=
  { g0 with geomBox := fun n => n == 5, geomWidth := fun _ => 7 }

/-- Pipette tool active, hovering the side-7 leaf cube, brush size 1. -/
def stSide7 : EditorState :=
  { st0 with
    graph := gSide7
    activeTool := .pipette
    hovered := some ⟨0, 0, 0, 5, none⟩ }

/-- A scene with a leaf box mesh 5 of side 4 (scale 1, width 4). -/
def gSide4 : GraphState :=
  { g0 with geomBox := fun n => n == 5, geomWidth := fun _ => 4 }

/-- Pipette tool active, hovering the side-4 leaf cube, brush size 1. -/
def stSide4 : EditorState :=
  { st0 with
    graph := gSide4
    activeTool := .pipette
    hovered := some ⟨0, 0, 0, 5, none⟩ }

/-- Claim C3 (amended): on a pipette activation within 300 ms of the
previous one, an `InstancedMesh` target leaves the brush size unchanged,
and a leaf box target sets the brush size to the rounded cube side only
when that rounded value already lies in `[1,5]`; otherwise the brush size
is left unchanged (the code performs no clamping). -/
theorem pipette_size_in_range_only (now : ℤ) (st : EditorState)
    (hv : HoverTarget) (htool : st.activeTool = .pipette)
    (hh : st.hovered = some hv) (hdbl : now - st.lastPipetteClick < 300) :
    (st.graph.instanced hv.hitObj = true →
      (mousedownPipette now st).brushSize = st.brushSize) ∧
    (st.graph.instanced hv.hitObj = false →
      st.graph.geomBox hv.hitObj = true →
      ((1 ≤ jsRound (cubeSide st.graph hv.hitObj) ∧
          jsRound (cubeSide st.graph hv.hitObj) ≤ 5 →
        (mousedownPipette now st).brushSize =
          (jsRound (cubeSide st.graph hv.hitObj)).toNat) ∧
       (¬(1 ≤ jsRound (cubeSide st.graph hv.hitObj) ∧
          jsRound (cubeSide st.graph hv.hitObj) ≤ 5) →
        (mousedownPipette now st).brushSize = st.brushSize))) := by
  refine ⟨fun hinst => ?_, fun hinst hbox => ⟨fun hin => ?_, fun hout => ?_⟩⟩
  · simp [mousedownPipette, htool, hh, hdbl, hinst]
  · obtain ⟨hin1, hin2⟩ := hin
    simp [mousedownPipette, htool, hh, hdbl, hinst, hbox, hin1, hin2]
  · simp [mousedownPipette, htool, hh, hdbl, hinst, hbox, hout]

/-- Claim C3 counterexample: a double pipette activation on a leaf cube of
side 7 leaves the brush size at 1, whereas the claimed round-and-clamp rule
would set it to 5. -/
theorem pipette_clamp_counterexample :
    (mousedownPipette 100 stSide7).brushSize = 1 ∧
    jsRound (cubeSide stSide7.graph 5) = 7 ∧
    (min 5 (max 1 (jsRound (cubeSide stSide7.graph 5)))).toNat = 5 ∧
    (mousedownPipette 100 stSide7).brushSize ≠
      (min 5 (max 1 (jsRound (cubeSide stSide7.graph 5)))).toNat := by
  have h7 : jsRound (cubeSide stSide7.graph 5) = 7 := by
    norm_num [cubeSide, jsRound, stSide7, gSide7, g0, trsDefault]
  have h1 : (mousedownPipette 100 stSide7).brushSize = 1 := by
    norm_num [mousedownPipette, stSide7, gSide7, st0, g0, cubeSide,
      jsRound, trsDefault]
  refine ⟨h1, h7, by rw [h7]; omega, ?_⟩
  rw [h1, h7]
  omega

/-- Witness for C3 (amended): side-4 leaf cube sets the brush size to 4. -/
theorem pipette_size_in_range_only_witness :
    (mousedownPipette 100 stSide4).brushSize = 4 := by
  have hside : jsRound (cubeSide stSide4.graph
      (HoverTarget.hitObj ⟨0, 0, 0, 5, none⟩)) = 4 := by
    norm_num [cubeSide, stSide4, gSide4, g0, jsRound, trsDefault]
  have h := ((pipette_size_in_range_only 100 stSide4 ⟨0, 0, 0, 5, none⟩ rfl
      rfl (by decide)).2 rfl rfl).1 (by rw [hside]; norm_num)
  rw [h, hside]
  rfl

/-- A scene in which group 2 is locked and node 3 is an unlocked child of
group 2 (all other nodes detached). -/
def gChain : GraphState :=
  { g0 with
    locked := fun n => n == 2
    parent := fun n => if n = 3 then some 2 else none }

/-- Claim C4 (amended): the Select pointer-down filter excludes the gizmo,
the selection box, and transform-controls planes — but not the ghost cursor
— and every node whose ancestor chain (node included) contains a locked
node; the Build/Break/Pipette hover filter excludes the ghost as well but
tests only the direct node's lock flag, so an unlocked child of a locked
group passes the hover filter while the Select filter rejects it. -/
theorem lock_filter_asymmetry (g : GraphState) (w : Widgets)
    (c G : NodeId) (fuel : ℕ)
    (hpar : g.parent c = some G) (hGlock : g.locked G = true)
    (hclock : g.locked c = false)
    (hcscene : c ≠ sceneId) (hGscene : G ≠ sceneId)
    (hcw1 : c ≠ w.ghost) (hcw2 : c ≠ w.gizmoRoot) (hcw3 : c ≠ w.selBox)
    (hcp : g.isTCPlane c = false)
    (hgw1 : w.ghost ≠ w.gizmoRoot) (hgw2 : w.ghost ≠ w.selBox)
    (hgp : g.isTCPlane w.ghost = false)
    (hgchain : chainUnlocked g fuel w.ghost = true) :
    hoverFilter g w c = true ∧
    selectFilter g w (fuel + 2) c = false ∧
    hoverFilter g w w.ghost = false ∧
    selectFilter g w fuel w.ghost = true := by
  have hchainc : chainUnlocked g (fuel + 2) c = false := by
    unfold chainUnlocked
    rw [if_neg hcscene]
    simp only [hclock, Bool.false_eq_true, if_false, hpar]
    unfold chainUnlocked
    rw [if_neg hGscene]
    simp only [hGlock, if_true]
  refine ⟨?_, ?_, ?_, ?_⟩
  · simp [hoverFilter, hcw1, hcw2, hcw3, hcp, hclock]
  · simp [selectFilter, hchainc]
  · simp [hoverFilter]
  · simp [selectFilter, hgw1, hgw2, hgp, hgchain]

/-- Claim C4 counterexample: the Select filter does not exclude the ghost
cursor widget.  In the empty scene with widget ids ghost = 1, gizmo = 2,
selection box = 3, the ghost passes the Select filter — a Select
pointer-down whose nearest hit is the ghost selects it — while the hover
filter rejects it as an editor widget. -/
theorem select_filter_ghost_counterexample :
    selectFilter g0 ⟨1, 2, 3⟩ 5 1 = true ∧
    hoverFilter g0 ⟨1, 2, 3⟩ 1 = false ∧
    (mousedownSelect ⟨1, 2, 3⟩ 5 0 [⟨⟨0, 0, 0⟩, ⟨0, 1, 0⟩, 1, none⟩]
      st0).selected = some 1 :=
  ⟨rfl, rfl, rfl⟩

/-- Witness for C4 (amended): locked group 2 with unlocked child 3,
widget ids 10/11/12, fuel 1. -/
theorem lock_filter_asymmetry_witness :
    hoverFilter gChain ⟨10, 11, 12⟩ 3 = true ∧
    selectFilter gChain ⟨10, 11, 12⟩ 3 3 = false ∧
    hoverFilter gChain ⟨10, 11, 12⟩ 10 = false ∧
    selectFilter gChain ⟨10, 11, 12⟩ 1 10 = true :=
  lock_filter_asymmetry gChain ⟨10, 11, 12⟩ 3 2 1 rfl rfl rfl
    (by decide) (by decide) (by decide) (by decide) (by decide) rfl
    (by decide) (by decide) rfl rfl

/-- Components of the Build snap target, by definition. -/
theorem snapTarget_build_x (s : ℕ) (p n : Vec3) :
    (snapTarget .build s p n).x =
      ((jsRound (p.x + n.x * ((s : ℚ) * (1/2)))) : ℚ) := rfl

theorem snapTarget_build_y (s : ℕ) (p n : Vec3) :
    (snapTarget .build s p n).y =
      ((jsRound (p.y + n.y * ((s : ℚ) * (1/2)))) : ℚ) := rfl

theorem snapTarget_build_z (s : ℕ) (p n : Vec3) :
    (snapTarget .build s p n).z =
      ((jsRound (p.z + n.z * ((s : ℚ) * (1/2)))) : ℚ) := rfl

/-- `mousemoveTool` only ever writes the `hovered` field. -/
theorem mousemoveTool_fields (w : Widgets) (l : List RayHit)
    (st : EditorState) :
    (mousemoveTool w l st).activeTool = st.activeTool ∧
    (mousemoveTool w l st).graph = st.graph ∧
    (mousemoveTool w l st).brushSize = st.brushSize := by
  unfold mousemoveTool
  split
  · split <;> exact ⟨rfl, rfl, rfl⟩
  · exact ⟨rfl, rfl, rfl⟩

/-- With the Build tool active and a nearest hit passing the hover filter,
`mousemove` stores the snapped target for that hit. -/
theorem mousemoveTool_hovered_build (w : Widgets) (st : EditorState)
    (hit : RayHit) (htool : st.activeTool = .build)
    (hf : hoverFilter st.graph w hit.object = true) :
    (mousemoveTool w [hit] st).hovered =
      some ⟨(snapTarget .build st.brushSize hit.point hit.normal).x,
            (snapTarget .build st.brushSize hit.point hit.normal).y,
            (snapTarget .build st.brushSize hit.point hit.normal).z,
            hit.object, hit.instanceId⟩ := by
  unfold mousemoveTool
  rw [if_pos (by rw [htool]; exact Or.inl rfl)]
  simp only [List.find?, hf]
  rw [htool]

/-- The transform given to the freshly built voxel: position at the hover
target, identity orientation, unit scale. -/
theorem mousedownBuild_transform (nowm : ℤ) (v u : NodeId) (h : Hist)
    (st : EditorState) (hv : HoverTarget)
    (htool : st.activeTool = .build) (hh : st.hovered = some hv) :
    (mousedownBuild nowm v u (h, st)).2.graph.transform v =
      ⟨⟨hv.x, hv.y, hv.z⟩, quatId, ⟨1, 1, 1⟩⟩ := by
  unfold mousedownBuild
  simp only [htool, hh, if_true]
  split
  · simp [execute, Cmd.applyE, addChild, Function.update_same]
  · simp [execute, Cmd.applyE, addChild, Function.update_same]

/-- Build tool active with brush size 3 over the empty scene. -/
def stBuild3 : EditorState :=
  { st0 with activeTool := .build, brushSize := 3 }

/-- Claim C5: a Build pointer-down after a hover hit creates its node with
integer center coordinates (for any brush size, in particular sizes 1–5),
and the concrete scenario — brush size 3, hit point (2.1, 0.4, 2.9), face
normal (0, 1, 0) — yields center exactly (2, 2, 3). -/
theorem build_center_integral (w : Widgets) (st : EditorState)
    (hit : RayHit) (v u : NodeId) (nowm : ℤ) (h : Hist)
    (htool : st.activeTool = .build)
    (_hs : 1 ≤ st.brushSize ∧ st.brushSize ≤ 5)
    (hfilter : hoverFilter st.graph w hit.object = true) :
    (∃ a b c : ℤ,
      ((mousedownBuild nowm v u
          (h, mousemoveTool w [hit] st)).2.graph.transform v).position =
        ⟨(a : ℚ), (b : ℚ), (c : ℚ)⟩) ∧
    (st.brushSize = 3 → hit.point = ⟨21/10, 2/5, 29/10⟩ →
      hit.normal = ⟨0, 1, 0⟩ →
      ((mousedownBuild nowm v u
          (h, mousemoveTool w [hit] st)).2.graph.transform v).position =
        ⟨2, 2, 3⟩) := by
  obtain ⟨hf1, hf2, hf3⟩ := mousemoveTool_fields w [hit] st
  have hhov := mousemoveTool_hovered_build w st hit htool hfilter
  have htr := mousedownBuild_transform nowm v u h (mousemoveTool w [hit] st)
    _ (by rw [hf1, htool]) hhov
  constructor
  · refine ⟨jsRound (hit.point.x + hit.normal.x * ((st.brushSize : ℚ) *
      (1/2))), jsRound (hit.point.y + hit.normal.y * ((st.brushSize : ℚ) *
      (1/2))), jsRound (hit.point.z + hit.normal.z * ((st.brushSize : ℚ) *
      (1/2))), ?_⟩
    rw [htr]
    simp only [snapTarget_build_x, snapTarget_build_y, snapTarget_build_z]
  · intro hs3 hpoint hnormal
    rw [htr]
    simp only [snapTarget_build_x, snapTarget_build_y, snapTarget_build_z,
      hs3, hpoint, hnormal]
    have hx : jsRound ((21:ℚ)/10 + 0 * ((3:ℕ) * (1/2))) = 2 := by
      norm_num [jsRound]
    have hy : jsRound ((2:ℚ)/5 + 1 * ((3:ℕ) * (1/2))) = 2 := by
      norm_num [jsRound]
    have hz : jsRound ((29:ℚ)/10 + 0 * ((3:ℕ) * (1/2))) = 3 := by
      norm_num [jsRound]
    norm_num [jsRound]

/-- Witness for C5: the concrete scenario executed end to end. -/
theorem build_center_integral_witness :
    ((mousedownBuild 0 20 21 (histInit, mousemoveTool ⟨10, 11, 12⟩
        [⟨⟨21/10, 2/5, 29/10⟩, ⟨0, 1, 0⟩, 5, none⟩]
        stBuild3)).2.graph.transform 20).position = ⟨2, 2, 3⟩ :=
  (build_center_integral ⟨10, 11, 12⟩ stBuild3
    ⟨⟨21/10, 2/5, 29/10⟩, ⟨0, 1, 0⟩, 5, none⟩ 20 21 0 histInit rfl
    (by decide) rfl).2 rfl rfl rfl

/-! ## The undo ×N / redo ×N round trip (C1) -/

theorem revertSeqE_append_singleton (a : List Cmd) (c : Cmd)
    (s : EditorState) :
    revertSeqE (a ++ [c]) s = revertSeqE a (c.revertE s) := by
  unfold revertSeqE
  rw [List.foldr_append]
  rfl

/-- `execute` at a cursor already at the end of the log just appends. -/
theorem execute_at_end (c : Cmd) (l : List Cmd) (s : EditorState) :
    execute c (⟨l, (l.length : ℤ) - 1⟩, s) =
      (⟨l ++ [c], ((l ++ [c]).length : ℤ) - 1⟩, c.applyE s) := by
  show ((⟨(if (l.length : ℤ) - 1 < (l.length : ℤ) - 1
      then l.take (((l.length : ℤ) - 1) + 1).toNat else l) ++ [c],
      (l.length : ℤ) - 1 + 1⟩ : Hist), c.applyE s) = _
  rw [if_neg (lt_irrefl _)]
  have hidx : (l.length : ℤ) - 1 + 1 = ((l ++ [c]).length : ℤ) - 1 := by
    rw [List.length_append, List.length_singleton]
    push_cast
    ring
  rw [hidx]

/-- Executing a command list starting from a cursor at the end of the log:
the log grows by the list and the state folds through `applyE`. -/
theorem execList_from_end (cmds : List Cmd) (l : List Cmd)
    (s : EditorState) :
    execList cmds (⟨l, (l.length : ℤ) - 1⟩, s) =
      (⟨l ++ cmds, ((l ++ cmds).length : ℤ) - 1⟩, applySeqE cmds s) := by
  induction cmds generalizing l s with
  | nil => simp [execList, applySeqE]
  | cons c cs ih =>
      show execList cs (execute c (⟨l, (l.length : ℤ) - 1⟩, s)) = _
      rw [execute_at_end, ih (l ++ [c]) (c.applyE s)]
      simp [List.append_assoc, applySeqE]

/-- `n` consecutive `undo`s from cursor `j + n - 1` revert the log segment
`[j, j + n)`, last command first. -/
theorem undo_iterate (n : ℕ) (l : List Cmd) (j : ℕ) (s : EditorState)
    (hb : j + n ≤ l.length) :
    undo^[n] (⟨l, ((j + n : ℕ) : ℤ) - 1⟩, s) =
      (⟨l, (j : ℤ) - 1⟩, revertSeqE ((l.drop j).take n) s) := by
  induction n generalizing s with
  | zero => simp [revertSeqE]
  | succ n ih =>
      have hjn : j + n < l.length := by omega
      have hcast : ((j + (n + 1) : ℕ) : ℤ) - 1 = ((j + n : ℕ) : ℤ) := by
        push_cast
        ring
      have hstep : undo (⟨l, ((j + n : ℕ) : ℤ)⟩, s) =
          (⟨l, ((j + n : ℕ) : ℤ) - 1⟩, (l.get ⟨j + n, hjn⟩).revertE s) := by
        unfold undo
        rw [if_pos (Int.natCast_nonneg (j + n))]
        rw [Int.toNat_natCast, List.get?_eq_getElem?,
          List.getElem?_eq_getElem hjn]
        rfl
      have hseg : (l.drop j).take (n + 1) =
          (l.drop j).take n ++ [l.get ⟨j + n, hjn⟩] := by
        have hlt : n < (l.drop j).length := by
          rw [List.length_drop]
          omega
        rw [← List.take_concat_get (l.drop j) n hlt, List.concat_eq_append]
        congr 1
        simp [List.getElem_drop]
      rw [Function.iterate_succ_apply, hcast, hstep, ih _ (by omega), hseg,
        revertSeqE_append_singleton]

/-- `n` consecutive `redo`s from cursor `j - 1` replay the log segment
`[j, j + n)`, in order. -/
theorem redo_iterate (n : ℕ) (l : List Cmd) (j : ℕ) (s : EditorState)
    (hb : j + n ≤ l.length) :
    redo^[n] (⟨l, (j : ℤ) - 1⟩, s) =
      (⟨l, ((j + n : ℕ) : ℤ) - 1⟩, applySeqE ((l.drop j).take n) s) := by
  induction n generalizing j s with
  | zero => simp [applySeqE]
  | succ n ih =>
      have hj : j < l.length := by omega
      have hstep : redo (⟨l, (j : ℤ) - 1⟩, s) =
          (⟨l, (j : ℤ)⟩, (l.get ⟨j, hj⟩).applyE s) := by
        unfold redo
        rw [if_pos (by omega : (j : ℤ) - 1 < (l.length : ℤ) - 1)]
        rw [show (j : ℤ) - 1 + 1 = (j : ℤ) by ring]
        rw [Int.toNat_natCast, List.get?_eq_getElem?,
          List.getElem?_eq_getElem hj]
        rfl
      have hseg : (l.drop j).take (n + 1) =
          l.get ⟨j, hj⟩ :: (l.drop (j + 1)).take n := by
        rw [List.drop_eq_getElem_cons hj]
        rfl
      rw [Function.iterate_succ_apply, hstep,
        show ((j : ℤ)) = ((j + 1 : ℕ) : ℤ) - 1 by push_cast; ring,
        ih (j + 1) _ (by omega), hseg,
        show ((j + 1 + n : ℕ) : ℤ) = ((j + (n + 1) : ℕ) : ℤ) by
          push_cast; ring]
      rfl

/-- `apply` and `revert` are exact graph-level inverses for a command that
is well-formed at its execution point. -/
theorem revertG_applyG (c : Cmd) (g : GraphState) (h : validC c g) :
    c.revertG (c.applyG g) = g := by
  cases c with
  | addVoxel p v =>
      have hpar : g.parent v = none := h
      simp only [Cmd.applyG, Cmd.revertG, addChild, removeChild]
      rw [if_pos (Function.update_same v (some p) g.parent)]
      have hupd : Function.update (Function.update g.parent v (some p)) v
          none = g.parent := by
        rw [Function.update_idem, ← hpar, Function.update_eq_self]
      rw [hupd]
  | removeVoxel p v =>
      have hpar : g.parent v = some p := h
      simp only [Cmd.applyG, Cmd.revertG, removeChild, addChild]
      rw [if_pos hpar]
      have hupd : Function.update (Function.update g.parent v none) v
          (some p) = g.parent := by
        rw [Function.update_idem, ← hpar, Function.update_eq_self]
      rw [hupd]
  | transformCmd o old new =>
      have htr : g.transform o = old := h
      simp only [Cmd.applyG, Cmd.revertG, setTRS]
      have hupd : Function.update (Function.update g.transform o new) o old
          = g.transform := by
        rw [Function.update_idem, ← htr, Function.update_eq_self]
      rw [hupd]

/-- Reverting a well-formed run, last command first, undoes it exactly at
the graph level. -/
theorem revertSeqG_applySeqG (cmds : List Cmd) (g : GraphState)
    (h : validRun cmds g) : revertSeqG cmds (applySeqG cmds g) = g := by
  induction cmds generalizing g with
  | nil => rfl
  | cons c cs ih =>
      obtain ⟨h1, h2⟩ := h
      show c.revertG (revertSeqG cs (applySeqG cs (c.applyG g))) = g
      rw [ih _ h2, revertG_applyG c g h1]

/-- `cmd.execute()` touches the graph exactly as its graph-level version. -/
theorem applyE_graph (c : Cmd) (st : EditorState) :
    (c.applyE st).graph = c.applyG st.graph := by
  cases c with
  | addVoxel p v => rfl
  | removeVoxel p v =>
      simp only [Cmd.applyE, Cmd.applyG]
      split
      · rw [selectObject_graph]
      · rfl
  | transformCmd o old new => rfl

/-- `cmd.undo()` touches the graph exactly as its graph-level version. -/
theorem revertE_graph (c : Cmd) (st : EditorState) :
    (c.revertE st).graph = c.revertG st.graph := by
  cases c <;> rfl

theorem applySeqE_graph (cmds : List Cmd) (st : EditorState) :
    (applySeqE cmds st).graph = applySeqG cmds st.graph := by
  induction cmds generalizing st with
  | nil => rfl
  | cons c cs ih =>
      show (applySeqE cs (c.applyE st)).graph = _
      rw [ih, applyE_graph]
      rfl

theorem revertSeqE_graph (cmds : List Cmd) (st : EditorState) :
    (revertSeqE cmds st).graph = revertSeqG cmds st.graph := by
  induction cmds generalizing st with
  | nil => rfl
  | cons c cs ih =>
      show (c.revertE (revertSeqE cs st)).graph = _
      rw [revertE_graph, ih]
      rfl

/-- Claim C1: after executing `N` well-formed commands through the
`CommandManager`, `undo()` ×N followed by `redo()` ×N reproduces exactly the
scene-graph state (parent links, transforms, lock flags, and all other node
attributes) that held after the `N`-th execute. -/
theorem undo_redo_roundtrip (cmds : List Cmd) (s0 : EditorState)
    (hv : validRun cmds s0.graph) :
    (redo^[cmds.length] (undo^[cmds.length]
        (execList cmds (histInit, s0)))).2.graph =
      (execList cmds (histInit, s0)).2.graph := by
  have hexec : execList cmds (histInit, s0) =
      (⟨cmds, ((cmds.length : ℕ) : ℤ) - 1⟩, applySeqE cmds s0) := by
    have h0 := execList_from_end cmds [] s0
    simpa using h0
  have hundo := undo_iterate cmds.length cmds 0 (applySeqE cmds s0)
    (by omega)
  have hredo := redo_iterate cmds.length cmds 0
    (revertSeqE cmds (applySeqE cmds s0)) (by omega)
  rw [hexec]
  rw [show ((cmds.length : ℕ) : ℤ) - 1 = ((0 + cmds.length : ℕ) : ℤ) - 1 by
    push_cast; ring]
  rw [hundo]
  simp only [List.drop_zero, List.take_length] at hundo hredo ⊢
  rw [show ((0 : ℕ) : ℤ) - 1 = ((0 + 0 : ℕ) : ℤ) - 1 by norm_num]
    at hredo ⊢
  rw [hredo]
  simp only [applySeqE_graph, revertSeqE_graph, applySeqE_graph]
  rw [revertSeqG_applySeqG cmds s0.graph hv]

/-- A sample transform target state. -/
def trs2 : TRS := ⟨⟨1, 2, 3⟩, quatId, ⟨1, 1, 1⟩⟩

/-- A well-formed three-command run: add node 1, transform it, remove it. -/
def cmds3 : List Cmd :=
  [.addVoxel 0 1, .transformCmd 1 trsDefault trs2, .removeVoxel 0 1]

/-- Witness for C1: the three-command run round-trips. -/
theorem undo_redo_roundtrip_witness :
    (redo^[cmds3.length] (undo^[cmds3.length]
        (execList cmds3 (histInit, st0)))).2.graph =
      (execList cmds3 (histInit, st0)).2.graph :=
  undo_redo_roundtrip cmds3 st0 ⟨rfl, rfl, rfl, trivial⟩

end VoxelEditor
